import Mathlib

set_option maxRecDepth 100000
set_option maxHeartbeats 1000000

namespace Startstop

/-! # Embedding of startstop (src/startstop.py)

The development models the task registry, the liveness check, the
process-stop loop and the log Tailer of startstop. Bytes are Nat values,
byte strings are List Nat, file-system state is an explicit structure,
and timestamps are Nat values (the strftime round trip of the source is
the identity on them). -/

/-! ## Tailer (class Tailer, src/startstop.py lines 54-261)

A binary file open for reading is its byte content together with the
cursor position. Reading past end of file yields the available bytes;
seeking to a negative position raises, as os.lseek does for a real file.
The loops of the source are written with an explicit fuel argument large
enough that the fuelOut case is never reached. -/

def LINE_TERMINATORS : List (List Nat) := [[13, 10], [10], [13]]

structure BFile where
  data : List Nat
  pos : Nat
deriving Repr, DecidableEq

inductive TailErr where
  | negativeSeek
  | fuelOut
deriving Repr, DecidableEq

namespace Tailer

/-- Read up to n bytes from the cursor (none reads to end of file),
returning the byte count, the bytes, and the advanced file, mirroring
self.read of the source. -/
def readB (f : BFile) (n : Option Nat) : Nat × List Nat × BFile :=
  let avail := f.data.drop f.pos
  let bytes := match n with
    | some k => avail.take k
    | none => avail
  (bytes.length, bytes, { f with pos := f.pos + bytes.length })

/-- Seek to an absolute position; a negative target raises, as lseek does. -/
def seekSet (f : BFile) (p : Int) : Except TailErr BFile :=
  if p < 0 then .error .negativeSeek else .ok { f with pos := p.toNat }

/-- Mirrors Tailer.prefix_line_terminator: the first terminator, in the
order CRLF, LF, CR, that the data starts with. -/
def prefix_line_terminator (d : List Nat) : Option (List Nat) :=
  LINE_TERMINATORS.find? (fun t => t.isPrefixOf d)

/-- Mirrors Tailer.suffix_line_terminator: the first terminator, in the
order CRLF, LF, CR, that the data ends with. -/
def suffix_line_terminator (d : List Nat) : Option (List Nat) :=
  LINE_TERMINATORS.find? (fun t => t.isSuffixOf d)

/-- Mirrors re.split over the alternation CRLF | LF | CR: the regex engine
scans left to right trying the alternatives in order at each position. -/
def resplitAux (acc : List Nat) : List Nat → List (List Nat)
  | [] => [acc.reverse]
  | 13 :: 10 :: rest => acc.reverse :: resplitAux [] rest
  | 10 :: rest => acc.reverse :: resplitAux [] rest
  | 13 :: rest => acc.reverse :: resplitAux [] rest
  | b :: rest => resplitAux (b :: acc) rest

/-- Mirrors Tailer.splitlines. -/
def splitlines (data : List Nat) : List (List Nat) :=
  resplitAux [] data

/-- Mirrors the terminator-stripping loop at the end of Tailer.tail and
Tailer.head: drop one trailing terminator, first match in order wins. -/
def stripTrailingTerm (data : List Nat) : List Nat :=
  match LINE_TERMINATORS.find? (fun t => t.isSuffixOf data) with
  | some t => data.take (data.length - t.length)
  | none => data

/-- Mirrors the inner while loop of Tailer.seek_next_line: the first
data_where at which a terminator starts, with that terminator. -/
def findPrefixTerm : List Nat → Nat → Option (Nat × List Nat)
  | [], _ => none
  | d :: rest, i =>
    match prefix_line_terminator (d :: rest) with
    | some t => some (i, t)
    | none => findPrefixTerm rest (i + 1)

/-- Mirrors the while True loop of Tailer.seek_next_line. -/
def seekNextLoop (R : Nat) : Nat → BFile → Nat → Nat → Except TailErr (Int × BFile)
  | 0, _, _, _ => .error .fuelOut
  | fuel + 1, f, whereP, offset =>
    let r := readB f (some R)
    let data_len := r.1
    let data := r.2.1
    let f := r.2.2
    if data_len = 0 then .ok (-1, f)
    else
      -- consume a CRLF split across the chunk boundary by reading one extra byte
      let s :=
        if data.getLast? = some 13 then
          let terminator_where := f.pos
          let r2 := readB f (some 1)
          if r2.1 ≠ 0 ∧ r2.2.1.head? = some 10 then
            (data_len + 1, data ++ [10], r2.2.2)
          else
            (data_len, data, { r2.2.2 with pos := terminator_where })
        else (data_len, data, f)
      let data_len := s.1
      let data := s.2.1
      let f := s.2.2
      match findPrefixTerm data 0 with
      | some dw =>
        let f := { f with pos := whereP + offset + dw.1 + dw.2.length }
        .ok ((f.pos : Int), f)
      | none =>
        let offset := offset + data_len
        seekNextLoop R fuel { f with pos := whereP + offset } whereP offset

/-- Mirrors Tailer.seek_next_line (src lines 95-130). -/
def seek_next_line (R : Nat) (f : BFile) : Except TailErr (Int × BFile) :=
  seekNextLoop R (f.data.length + 2) f f.pos 0

inductive InnerRes where
  | found (data_where : Nat)
  | exhausted
deriving Repr, DecidableEq

/-- Mirrors the inner while loop of Tailer.seek_previous_line, scanning
data_where downward; a suffix terminator at the very end of the first
chunk is skipped, as the source comment explains. -/
def prevInnerGo (data : List Nat) (data_len offset : Nat) : Nat → Nat → InnerRes
  | _, 0 => .exhausted
  | 0, _ + 1 => .exhausted
  | fuel + 1, dw + 1 =>
    match suffix_line_terminator (data.take (dw + 1)) with
    | some t =>
      if offset = 0 ∧ dw + 1 = data_len then
        prevInnerGo data data_len offset fuel (dw + 1 - t.length)
      else .found (dw + 1)
    | none => prevInnerGo data data_len offset fuel dw

def prevInner (data : List Nat) (data_len offset : Nat) : InnerRes :=
  prevInnerGo data data_len offset (data_len + 1) data_len

/-- Mirrors the while True loop of Tailer.seek_previous_line; the seek to
where - offset - read_size is the one place a negative target can arise. -/
def seekPrevLoop (R : Nat) : Nat → BFile → Nat → Nat → Except TailErr (Int × BFile)
  | 0, _, _, _ => .error .fuelOut
  | fuel + 1, f, whereP, offset =>
    if offset = whereP then
      if whereP = 0 then .ok (-1, f)
      else .ok (0, { f with pos := 0 })
    else
      let read_size := if R ≤ whereP then R else whereP
      match seekSet f ((whereP : Int) - offset - read_size) with
      | .error e => .error e
      | .ok f =>
        let r := readB f (some read_size)
        let data_len := r.1
        let data := r.2.1
        let f := r.2.2
        -- consume a CRLF split across the chunk boundary by reading the byte before
        let s :=
          if data.head? = some 10 then
            let terminator_where := f.pos
            if data_len + 1 < terminator_where then
              let f1 := { f with pos := terminator_where - data_len - 1 }
              let r2 := readB f1 (some 1)
              if r2.2.1.head? = some 13 then
                (data_len + 1, 13 :: data, { r2.2.2 with pos := terminator_where })
              else (data_len, data, { r2.2.2 with pos := terminator_where })
            else (data_len, data, f)
          else (data_len, data, f)
        let data_len := s.1
        let data := s.2.1
        let f := s.2.2
        match prevInner data data_len offset with
        | .found dw =>
          let p := whereP - offset - (data_len - dw)
          .ok ((p : Int), { f with pos := p })
        | .exhausted => seekPrevLoop R fuel f whereP (offset + data_len)

/-- Mirrors Tailer.seek_previous_line (src lines 132-180). -/
def seek_previous_line (R : Nat) (f : BFile) : Except TailErr (Int × BFile) :=
  seekPrevLoop R (f.pos + 2) f f.pos 0

/-- Mirrors the for-loop in Tailer.tail and the negative branch of
Tailer.head: call seek_previous_line up to n times, stopping early at -1. -/
def backLoop (R : Nat) : Nat → BFile → Except TailErr BFile
  | 0, f => .ok f
  | n + 1, f =>
    match seek_previous_line R f with
    | .error e => .error e
    | .ok (r, f) => if r = -1 then .ok f else backLoop R n f

/-- Mirrors the for-loop in the nonnegative branch of Tailer.head. -/
def fwdLoop (R : Nat) : Nat → BFile → Except TailErr BFile
  | 0, f => .ok f
  | n + 1, f =>
    match seek_next_line R f with
    | .error e => .error e
    | .ok (r, f) => if r = -1 then .ok f else fwdLoop R n f

/-- Mirrors Tailer.tail (src lines 182-201): seek to end of file, walk back
n line starts, read the remainder, strip one trailing terminator, split. -/
def tail (R : Nat) (lines : Nat) (f : BFile) : Except TailErr (List (List Nat)) :=
  let f := { f with pos := f.data.length }
  match backLoop R lines f with
  | .error e => .error e
  | .ok f =>
    let r := readB f none
    let data := stripTrailingTerm r.2.1
    .ok (if data ≠ [] then splitlines data else [])

/-- Mirrors Tailer.head (src lines 203-230): for nonnegative n seek forward
past n lines from the start, for negative n seek backward |n| line starts
from the end; then read from the start up to that position, strip one
trailing terminator, split. -/
def head (R : Nat) (lines : Int) (f : BFile) : Except TailErr (List (List Nat)) :=
  let step : Except TailErr BFile :=
    if lines < 0 then
      backLoop R (-lines).toNat { f with pos := f.data.length }
    else
      fwdLoop R lines.toNat { f with pos := 0 }
  match step with
  | .error e => .error e
  | .ok f =>
    let end_pos := f.pos
    let f := { f with pos := 0 }
    let r := readB f (some end_pos)
    let data := stripTrailingTerm r.2.1
    .ok (if data ≠ [] then splitlines data else [])

end Tailer

/-- Reference notion of the lines of a byte stream, written from the spec:
lines are the segments delimited by the terminators CRLF, LF, CR, and a
trailing terminator at end of file does not produce an extra empty line. -/
def linesOf (data : List Nat) : List (List Nat) :=
  let d := Tailer.stripTrailingTerm data
  if d = [] then [] else Tailer.splitlines d

/-- A file whose single complete line is 1024 bytes long: one byte longer
than the 1024-byte read chunk of the Tailer. -/
def bigLineFile : BFile :=
  { data := List.replicate 1024 97 ++ [10], pos := 0 }

/-- The last 1024 bytes the backward scan of bigLineFile reads. -/
def ALine : List Nat := List.replicate 1023 97 ++ [10]

/-! ## Python int() parsing

int(s) strips whitespace, accepts an optional sign and then decimal
digits, with PEP 515 single underscores allowed between digits. Unicode
digits are not modelled. -/

def pyDigitsAux : Nat → List Char → Option Nat
  | acc, [] => some acc
  | acc, c :: rest =>
    if c.isDigit then pyDigitsAux (acc * 10 + (c.toNat - 48)) rest
    else if c = '_' then
      match rest with
      | [] => none
      | r :: rs => if r.isDigit then pyDigitsAux (acc * 10 + (r.toNat - 48)) rs else none
    else none

def pyDigits : List Char → Option Nat
  | [] => none
  | c :: rest => if c.isDigit then pyDigitsAux (c.toNat - 48) rest else none

def pyInt (s : String) : Option Int :=
  let cs := ((s.toList.dropWhile Char.isWhitespace).reverse.dropWhile Char.isWhitespace).reverse
  match cs with
  | '+' :: rest => (pyDigits rest).map (fun n => (n : Int))
  | '-' :: rest => (pyDigits rest).map (fun n => -(n : Int))
  | rest => (pyDigits rest).map (fun n => (n : Int))

/-- str.split with the single-character separator dash, as
filename.split uses it; written as structural recursion over the
character list so that concrete instances evaluate. -/
def splitDashAux (acc : List Char) : List Char → List String
  | [] => [String.mk acc.reverse]
  | c :: rest =>
    if c = '-' then String.mk acc.reverse :: splitDashAux [] rest
    else splitDashAux (c :: acc) rest

def splitDash (s : String) : List String := splitDashAux [] s.toList

/-- Substring containment over character lists (the Python in operator),
written as structural recursion so that concrete instances evaluate. -/
def containsSub (sub : List Char) : List Char → Bool
  | [] => sub.isEmpty
  | c :: rest => sub.isPrefixOf (c :: rest) || containsSub sub rest

/-! ## Task registry state

A Task of the source is a dict; its possible fields are modelled as a
structure with optional fields. The durable state is the cache directory
(one entry per task directory, holding the parsed content of its
task.json), the pidfiles of the runtime temporary directory (a map from
task label to pidfile content), and the process table of the current
user as the ps call of is_task_running reports it (pid and full
invocation per live process, header line omitted since it never equals a
pid). -/

structure TaskRec where
  id : String
  name : Option String
  command : List String
  shell : Bool
  logs : Option String
  stdout : Option String
  stderr : Option String
  started_at : Option Nat
  pid : Option String
deriving DecidableEq, Repr

structure DirEntry where
  filename : String
  record : TaskRec
deriving DecidableEq, Repr

abbrev ProcTable := List (String × String)

structure Sys where
  dirs : List DirEntry
  pidfiles : String → Option String
  procs : ProcTable

def LOCK_FILE_NAME : String := "lock"

def RESERVED_FILE_NAMES : List String := [LOCK_FILE_NAME]

inductive Err where
  | Conflict
  | AlreadyExists
  | ExhaustedIds
  | NotFound
  | NotRunning
  | FailedFind
  | KeyErr
  | ValueErr
  | ProcessLookup
  | Permission
deriving DecidableEq, Repr

/-- Mirrors get_task_label (src lines 469-473). -/
def get_task_label (task : TaskRec) : String :=
  match task.name with
  | some n => n ++ "-" ++ task.id
  | none => task.id

/-- Mirrors parse_task_id_or_name (src lines 476-483): numeric tokens are
ids (normalized through int), everything else is a name. -/
def parse_task_id_or_name (s : String) : Option String × Option String :=
  match pyInt s with
  | some n => (some (toString n), none)
  | none => (none, some s)

/-- Mirrors create_pidfile (src lines 486-489): writes the pid to the
pidfile named after the task label only when the task carries a pid. -/
def create_pidfile (sys : Sys) (task : TaskRec) : Sys :=
  match task.pid with
  | some p =>
    { sys with pidfiles := fun l => if l = get_task_label task then some p else sys.pidfiles l }
  | none => sys

/-- The record json.dump writes: the task with the pid entry popped. -/
def dumpRec (task : TaskRec) : TaskRec := { task with pid := none }

/-- Writing dir_path/task.json: overwrite the record of an existing
directory entry, create the entry otherwise (os.makedirs exist_ok). -/
def putDir (sys : Sys) (filename : String) (rec : TaskRec) : Sys :=
  if sys.dirs.any (fun d => d.filename == filename) then
    { sys with dirs := sys.dirs.map (fun d =>
        if d.filename == filename then { d with record := rec } else d) }
  else { sys with dirs := sys.dirs ++ [{ filename := filename, record := rec }] }

/-- Mirrors create_task_cache (src lines 492-521): fill in the output
path(s) and started_at, write the record without pid, write the pidfile
when a pid is present. -/
def create_task_cache (sys : Sys) (task : TaskRec) (split_output : Bool) (now : Nat) :
    TaskRec × Sys :=
  let dir_name := get_task_label task
  let task :=
    if split_output then
      { task with
        stdout := some (dir_name ++ "/" ++ dir_name ++ "-" ++ toString now ++ ".out"),
        stderr := some (dir_name ++ "/" ++ dir_name ++ "-" ++ toString now ++ ".err"),
        started_at := some now }
    else
      { task with
        logs := some (dir_name ++ "/" ++ dir_name ++ "-" ++ toString now ++ ".log"),
        started_at := some now }
  let sys := putDir sys dir_name (dumpRec task)
  (task, create_pidfile sys task)

/-- Mirrors update_task_cache (src lines 524-532): rewrite the record
without pid, write the pidfile when a pid is present. -/
def update_task_cache (sys : Sys) (task : TaskRec) : Sys :=
  let dir_name := get_task_label task
  let sys := putDir sys dir_name (dumpRec task)
  create_pidfile sys task

/-- Mirrors is_task_running (src lines 535-542): scan the ps output of the
current user and report running as soon as some line carries the recorded
pid. The invocation column is unpacked by the source but never compared. -/
def is_task_running (procs : ProcTable) (task : TaskRec) : Bool :=
  procs.any (fun e =>
    match task.pid with
    | some p => e.1 == p
    | none => false)

/-- Mirrors get_task_from_cache_file (src lines 545-552): load the record
and attach the pid from the pidfile named after the label, when present. -/
def get_task_from_cache_file (sys : Sys) (d : DirEntry) : TaskRec :=
  let task := d.record
  match sys.pidfiles (get_task_label task) with
  | some p => { task with pid := some p }
  | none => task

/-- The name a directory name carries: the part before the first dash. -/
def nameOfFilename (filename : String) : String := (splitDash filename).headD ""

/-- The id a directory name carries: the whole name when it has no dash,
the part after the first dash otherwise. -/
def idOfFilename (filename : String) : String :=
  let parts := splitDash filename
  if parts.length = 1 then parts.headD "" else parts.getD 1 ""

/-- Mirrors find_task_by_name (src lines 555-560). -/
def find_task_by_name (sys : Sys) (name : String) : Option TaskRec :=
  (sys.dirs.find? (fun d =>
    (!RESERVED_FILE_NAMES.contains d.filename) && (nameOfFilename d.filename == name))).map
    (get_task_from_cache_file sys)

/-- Mirrors find_task_by_id (src lines 563-578). -/
def find_task_by_id (sys : Sys) (task_id : String) : Option TaskRec :=
  (sys.dirs.find? (fun d =>
    (!RESERVED_FILE_NAMES.contains d.filename) && (idOfFilename d.filename == task_id))).map
    (get_task_from_cache_file sys)

/-- The loop condition of remove_task_by_name: directory names without a
dash are skipped, others match on the part before the first dash. -/
def loopNameMatch (filename name : String) : Bool :=
  if (splitDash filename).length = 1 then false
  else nameOfFilename filename == name

/-- Mirrors remove_task_by_name (src lines 581-603). -/
def remove_task_by_name (sys : Sys) (name : String) : Except Err Unit × Sys :=
  match sys.dirs.find? (fun d => loopNameMatch d.filename name) with
  | none => (.error .NotFound, sys)
  | some d =>
    match find_task_by_name sys name with
    | none => (.error .FailedFind, sys)
    | some t =>
      if is_task_running sys.procs t then (.error .Conflict, sys)
      else (.ok (), { sys with dirs := sys.dirs.filter (fun e => e.filename != d.filename) })

/-- Mirrors remove_task_by_id (src lines 606-631). -/
def remove_task_by_id (sys : Sys) (task_id : String) : Except Err Unit × Sys :=
  match sys.dirs.find? (fun d => idOfFilename d.filename == task_id) with
  | none => (.error .NotFound, sys)
  | some d =>
    match find_task_by_id sys task_id with
    | none => (.error .FailedFind, sys)
    | some t =>
      if is_task_running sys.procs t then (.error .Conflict, sys)
      else (.ok (), { sys with dirs := sys.dirs.filter (fun e => e.filename != d.filename) })

/-- The id a directory name contributes to generate_id: int of the whole
name when that parses, else int of the part after the first dash. -/
def extractId (filename : String) : Option String :=
  match pyInt filename with
  | some n => some (toString n)
  | none =>
    match (splitDash filename).get? 1 with
    | some s2 => (pyInt s2).map toString
    | none => none

def existing_ids (filenames : List String) : List String := filenames.filterMap extractId

/-- Mirrors generate_id (src lines 647-661): the first value of 1..9999
whose decimal string is not among the existing ids. -/
def generate_id (filenames : List String) : Except Err String :=
  let existing := existing_ids filenames
  match (List.range' 1 9999).find? (fun i => !existing.contains (toString i)) with
  | some i => .ok (toString i)
  | none => .error .ExhaustedIds

/-- The create, spawn, update sequence of run after the name check passed
(src lines 687-722). The spawned pid and the timestamp are parameters. -/
def runSpawn (sys : Sys) (command : List String) (name : Option String)
    (split_output shell : Bool) (now : Nat) (newPid : String) (task_id : String) :
    Except Err TaskRec × Sys :=
  let task : TaskRec :=
    { id := task_id, name := name, command := command, shell := shell,
      logs := none, stdout := none, stderr := none, started_at := none, pid := none }
  let r := create_task_cache sys task split_output now
  let task := { r.1 with pid := some newPid }
  let sys := update_task_cache r.2 task
  (.ok task, sys)

/-- Mirrors run (src lines 668-723): with a name, an existing task of that
name raises Conflict when running, AlreadyExists otherwise, before
anything is created; then an id is allocated and the task is created. -/
def run (sys : Sys) (command : List String) (name : Option String)
    (split_output shell : Bool) (now : Nat) (newPid : String) :
    Except Err TaskRec × Sys :=
  match name with
  | some n =>
    match find_task_by_name sys n with
    | some t =>
      if is_task_running sys.procs t then (.error .Conflict, sys)
      else (.error .AlreadyExists, sys)
    | none =>
      match generate_id (sys.dirs.map (fun d => d.filename)) with
      | .error e => (.error e, sys)
      | .ok i => runSpawn sys command (some n) split_output shell now newPid i
  | none =>
    match generate_id (sys.dirs.map (fun d => d.filename)) with
    | .error e => (.error e, sys)
    | .ok i => runSpawn sys command none split_output shell now newPid i

/-! ## stop (src lines 783-806)

After the lock section resolves the task, os.kill sends SIGTERM to the
recorded pid, and on success the loop polls is_task_running against a
fresh ps snapshot each round, sleeping in between, forever. The processes
alive at the instant of the kill are the ownPids parameter (signallable
by this user) and foreignPids (alive but owned by another user); the
successive poll snapshots are the tables parameter. The outcome records
what was raised, or which pid was signalled and after how many polls the
loop observed the task dead, or that no provided snapshot observed it
dead. -/

inductive StopOut where
  | raised (e : Err)
  | diverges (pid : String)
  | done (pid : String) (polls : Nat)
deriving DecidableEq, Repr

inductive KillErr where
  | ProcessLookup
  | Permission
deriving DecidableEq, Repr

/-- Models os.kill(pid, SIGTERM): raises ProcessLookupError when no live
process has the pid, PermissionError when the pid belongs to a process of
another user, and delivers the signal otherwise. Neither exception is a
StartstopException, so stop_task does not catch them. Process-group
targets (negative pids) are not distinguished; the pidfiles this program
writes hold positive pids. -/
def osKill (ownPids foreignPids : List Int) (pid : Int) : Option KillErr :=
  if ownPids.contains pid then none
  else if foreignPids.contains pid then some .Permission
  else some .ProcessLookup

def pollUntilDead (tables : List ProcTable) (task : TaskRec) : Option Nat :=
  match tables with
  | [] => none
  | tb :: rest =>
    if is_task_running tb task then (pollUntilDead rest task).map (· + 1) else some 0

/-- The kill and busy-wait part of stop_task (src lines 799-806): KeyErr
when the loaded task has no pid entry, ValueErr when the pidfile content
is not numeric, then os.kill with SIGTERM (propagating its uncaught
ProcessLookupError or PermissionError) and on success the poll loop. -/
def killAndWait (task : TaskRec) (ownPids foreignPids : List Int)
    (tables : List ProcTable) : StopOut :=
  match task.pid with
  | none => .raised .KeyErr
  | some p =>
    match pyInt p with
    | none => .raised .ValueErr
    | some v =>
      match osKill ownPids foreignPids v with
      | some .ProcessLookup => .raised .ProcessLookup
      | some .Permission => .raised .Permission
      | none =>
        match pollUntilDead tables task with
        | some k => .done p k
        | none => .diverges p

/-- Mirrors stop_task (src lines 783-806). The name branch checks
liveness before signalling; the id branch does not. -/
def stop_task (sys : Sys) (ownPids foreignPids : List Int) (tables : List ProcTable)
    (task_id : Option String) (name : Option String) : StopOut × Sys :=
  match name with
  | some n =>
    match find_task_by_name sys n with
    | some t =>
      if !is_task_running sys.procs t then (.raised .NotRunning, sys)
      else (killAndWait t ownPids foreignPids tables, sys)
    | none => (.raised .NotFound, sys)
  | none =>
    match task_id with
    | some tid =>
      match find_task_by_id sys tid with
      | some t => (killAndWait t ownPids foreignPids tables, sys)
      | none => (.raised .NotFound, sys)
    | none => (.raised .ValueErr, sys)

/-! ## ls (src lines 926-981) -/

/-- Mirrors format_seconds (src lines 988-1004). -/
def format_seconds (seconds : Nat) : String :=
  let days := seconds / 86400
  let r1 := seconds % 86400
  let hours := r1 / 3600
  let r2 := r1 % 3600
  let minutes := r2 / 60
  let secs := r2 % 60
  if days > 0 then toString days ++ "d"
  else if hours > 0 then toString hours ++ "h"
  else if minutes > 0 then toString minutes ++ "m"
  else toString secs ++ "s"

/-- One row of the ls listing: the task fields ls keeps plus the pid and
uptime columns it fills in. -/
structure Row where
  id : String
  name : Option String
  command : List String
  shell : Bool
  pid : String
  uptime : String
  started_at : Nat
deriving DecidableEq, Repr

def runningRow (t : TaskRec) (now st : Nat) : Row :=
  { id := t.id, name := t.name, command := t.command, shell := t.shell,
    pid := t.pid.getD "", uptime := format_seconds (now - st), started_at := st }

def stoppedRow (t : TaskRec) (st : Nat) : Row :=
  { id := t.id, name := t.name, command := t.command, shell := t.shell,
    pid := "-", uptime := "-", started_at := st }

/-- The explicit-target filter of ls: a directory is kept when some token,
parsed as id or name, is among the dash-separated parts of its name. -/
def matchesFilter (command : List String) (filename : String) : Bool :=
  command.any (fun tok =>
    let p := parse_task_id_or_name tok
    let parts := splitDash filename
    (match p.1 with | some s2 => parts.contains s2 | none => false) ||
    (match p.2 with | some s2 => parts.contains s2 | none => false))

/-- The per-directory body of the ls loop: skip the reserved lock entry,
apply the explicit filter, load the task, then keep running tasks with a
computed uptime and, under all or an explicit filter match, stopped tasks
with dashes for pid and uptime. A record without started_at is skipped,
mirroring the ValueError catch around strptime. -/
def lsRow (sys : Sys) (now : Nat) (ls_all : Bool) (command : List String)
    (d : DirEntry) : Option Row :=
  if RESERVED_FILE_NAMES.contains d.filename then none
  else if !command.isEmpty && !matchesFilter command d.filename then none
  else
    let force := !command.isEmpty && matchesFilter command d.filename
    let task := get_task_from_cache_file sys d
    match task.started_at with
    | none => none
    | some st =>
      if is_task_running sys.procs task then some (runningRow task now st)
      else if ls_all || force then some (stoppedRow task st) else none

/-- Mirrors ls (src lines 926-963): collect the rows and sort them by
started_at ascending, as sorted with the started_at key does. -/
def ls (sys : Sys) (now : Nat) (ls_all : Bool) (command : List String) : List Row :=
  (sys.dirs.filterMap (lsRow sys now ls_all command)).mergeSort
    (fun a b => a.started_at ≤ b.started_at)

/-! ## Record writes (create_task_cache and update_task_cache)

Both write the record with plain open for write followed by json.dump:
the observable on-disk contents over time are the old content, then the
empty file the truncating open leaves, then each prefix of the new
content as it is written out, ending with the complete new content. -/

def writeTrace (old new : List Char) : List (List Char) :=
  old :: (List.range (new.length + 1)).map (fun k => new.take k)

/-- Modelled from the spec: the liveness check the spec describes, which
accepts a live process entry only when its pid matches and its invocation
matches a signature unique to how the task was launched; the signature
realised here is the example the spec gives, a path specific to the
task directory. The source has no such check. -/
def signature_matches (task : TaskRec) (invocation : String) : Bool :=
  containsSub (".startstop/" ++ get_task_label task).toList invocation.toList

/-! ## Concrete instances used by witnesses and counterexamples -/

/-- A task whose recorded pid is 42, launched as sleep 100. -/
def taskPid42 : TaskRec :=
  { id := "1", name := none, command := ["sleep", "100"], shell := false,
    logs := some "1/1-50.log", stdout := none, stderr := none,
    started_at := some 50, pid := some "42" }

/-- A process table where pid 42 now belongs to an unrelated process. -/
def procsRecycled : ProcTable := [("42", "vim notes.txt")]

/-- The stored record of a stopped task named foo with id 1. -/
def recFoo : TaskRec :=
  { id := "1", name := some "foo", command := ["sleep", "100"], shell := false,
    logs := some "foo-1/foo-1-50.log", stdout := none, stderr := none,
    started_at := some 50, pid := none }

/-- A registry holding only the stopped task foo-1, with no pidfile and no
live process. -/
def sysFoo : Sys :=
  { dirs := [⟨"foo-1", recFoo⟩], pidfiles := fun _ => none, procs := [] }

/-- The stored record of an anonymous task with id 1. -/
def recAnon : TaskRec :=
  { id := "1", name := none, command := ["sleep", "100"], shell := false,
    logs := some "1/1-50.log", stdout := none, stderr := none,
    started_at := some 50, pid := none }

/-- A registry holding the task directory 1 with a stale pidfile recording
pid 42, while no process of the user is alive. -/
def sysStale : Sys :=
  { dirs := [⟨"1", recAnon⟩],
    pidfiles := fun l => if l = "1" then some "42" else none,
    procs := [] }

/-- The task sysStale loads for id 1: the record with the stale pid 42. -/
def taskStale : TaskRec := { recAnon with pid := some "42" }

/-- The stored record of a task named bar with id 2, started earlier. -/
def recBar : TaskRec :=
  { id := "2", name := some "bar", command := ["cat"], shell := false,
    logs := some "bar-2/bar-2-30.log", stdout := none, stderr := none,
    started_at := some 30, pid := none }

/-- A registry holding the stopped task foo-1 and the running task bar-2
(pidfile 42, live process 42). -/
def sysLs : Sys :=
  { dirs := [⟨"foo-1", recFoo⟩, ⟨"bar-2", recBar⟩],
    pidfiles := fun l => if l = "bar-2" then some "42" else none,
    procs := [("42", "cat")] }

/-! ## Helper lemmas -/

lemma pollUntilDead_spec :
    ∀ (tables : List ProcTable) (t : TaskRec) (k : Nat),
      pollUntilDead tables t = some k →
      (∃ tb, tables.get? k = some tb ∧ is_task_running tb t = false) ∧
      ∀ j, j < k → ∃ tb, tables.get? j = some tb ∧ is_task_running tb t = true := by
  intro tables
  induction tables with
  | nil => intro t k h; simp [pollUntilDead] at h
  | cons tb rest ih =>
    intro t k h
    rw [pollUntilDead] at h
    by_cases hr : is_task_running tb t
    · rw [if_pos hr] at h
      cases h3 : pollUntilDead rest t with
      | none => rw [h3] at h; simp at h
      | some m =>
        rw [h3] at h
        obtain rfl : m + 1 = k := by injection h
        obtain ⟨⟨tb2, hget, hdead⟩, hbefore⟩ := ih t m h3
        refine ⟨⟨tb2, by simpa using hget, hdead⟩, ?_⟩
        intro j hj
        match j with
        | 0 => exact ⟨tb, rfl, hr⟩
        | j2 + 1 =>
          obtain ⟨tb3, hg3, hr3⟩ := hbefore j2 (by omega)
          exact ⟨tb3, by simpa using hg3, hr3⟩
    · rw [if_neg hr] at h
      have hk : k = 0 := by simpa using h.symm
      subst hk
      exact ⟨⟨tb, rfl, by simpa using hr⟩, fun j hj => absurd hj (by omega)⟩

lemma find?_congr_pred {α : Type} {p q : α → Bool} :
    ∀ (l : List α), (∀ d ∈ l, p d = q d) → l.find? p = l.find? q := by
  intro l
  induction l with
  | nil => intro _; rfl
  | cons a rest ih =>
    intro h
    rw [List.find?_cons, List.find?_cons, h a (by simp)]
    cases q a
    · exact ih (fun d hd => h d (by simp [hd]))
    · rfl

lemma putDir_mem (sys : Sys) (fn : String) (rec2 : TaskRec) :
    ∀ d ∈ (putDir sys fn rec2).dirs, d ∈ sys.dirs ∨ d.record = rec2 := by
  intro d hd
  rw [putDir] at hd
  by_cases h : sys.dirs.any (fun d2 => d2.filename == fn)
  · rw [if_pos h] at hd
    simp only [List.mem_map] at hd
    obtain ⟨d2, hd2, heq⟩ := hd
    by_cases hf : d2.filename == fn
    · right; rw [if_pos hf] at heq; rw [← heq]
    · left; rw [if_neg hf] at heq; rw [← heq]; exact hd2
  · rw [if_neg h] at hd
    simp only [List.mem_append, List.mem_singleton] at hd
    cases hd with
    | inl h2 => exact Or.inl h2
    | inr h2 => right; rw [h2]

lemma putDir_exists (sys : Sys) (fn : String) (rec2 : TaskRec) :
    ∃ d ∈ (putDir sys fn rec2).dirs, d.filename = fn ∧ d.record = rec2 := by
  rw [putDir]
  by_cases h : sys.dirs.any (fun d2 => d2.filename == fn)
  · rw [if_pos h]
    rw [List.any_eq_true] at h
    obtain ⟨d2, hd2, hf⟩ := h
    refine ⟨{ d2 with record := rec2 }, ?_, by simpa using hf, rfl⟩
    simp only [List.mem_map]
    exact ⟨d2, hd2, by rw [if_pos hf]⟩
  · rw [if_neg h]
    exact ⟨⟨fn, rec2⟩, by simp, rfl, rfl⟩

lemma get_task_label_create (task : TaskRec) (so : Bool) (now : Nat) (sys : Sys) :
    get_task_label (create_task_cache sys task so now).1 = get_task_label task := by
  rw [create_task_cache, get_task_label, get_task_label]
  cases so <;> simp

/-! ## Claims -/

/-- C1, counterexample: the claim says is_task_running may report running
only when the pid matches and the invocation matches the launch
signature; the code reports taskPid42 as running although the live
process with pid 42 is an unrelated invocation that does not match any
signature tied to the task directory. -/
theorem c1_counterexample :
    is_task_running procsRecycled taskPid42 = true ∧
    signature_matches taskPid42 "vim notes.txt" = false := by
  exact ⟨rfl, by decide⟩

/-- C1, amended: is_task_running reports running exactly when the recorded
pid is present and equals the pid column of some live process of the
user; the invocation column is never consulted, so rewriting every
invocation arbitrarily does not change the answer and a recycled pid is
still reported as running. -/
theorem c1_amended : ∀ (procs : ProcTable) (task : TaskRec),
    (is_task_running procs task = true ↔
      ∃ p, task.pid = some p ∧ p ∈ procs.map Prod.fst) ∧
    ∀ f : String → String,
      is_task_running (procs.map (fun e => (e.1, f e.2))) task =
        is_task_running procs task := by
  intro procs task
  constructor
  · rw [is_task_running, List.any_eq_true]
    cases hp : task.pid with
    | none => simp
    | some p =>
      simp only [List.mem_map]
      constructor
      · rintro ⟨e, he, hm⟩
        exact ⟨p, rfl, e, he, by simpa using hm⟩
      · rintro ⟨p2, hp2, e, he, hm⟩
        obtain rfl : p = p2 := by injection hp2
        exact ⟨e, he, by simpa using hm⟩
  · intro f
    rw [is_task_running, is_task_running, List.any_map]
    rfl

/-- C2: when run is given a name already carried by an existing task, it
fails with Conflict when that task is reported running and with
AlreadyExists otherwise, and in both cases the registry state is returned
unchanged: no task is created. -/
theorem c2_run_name_conflicts : ∀ (sys : Sys) (cmd : List String) (n : String)
    (so sh : Bool) (now : Nat) (newPid : String) (t : TaskRec),
    find_task_by_name sys n = some t →
    (is_task_running sys.procs t = true →
      run sys cmd (some n) so sh now newPid = (.error .Conflict, sys)) ∧
    (is_task_running sys.procs t = false →
      run sys cmd (some n) so sh now newPid = (.error .AlreadyExists, sys)) := by
  intro sys cmd n so sh now newPid t hf
  constructor <;> intro hr <;> simp [run, hf, hr]

/-- C2, witness at a concrete registry: the stopped task foo-1 exists, so
creating another task named foo fails with AlreadyExists and changes
nothing. -/
theorem c2_witness :
    run sysFoo ["x"] (some "foo") false false 9 "7" = (.error .AlreadyExists, sysFoo) :=
  (c2_run_name_conflicts sysFoo ["x"] "foo" false false 9 "7" recFoo rfl).2 rfl

/-- C5, counterexample: the claim says a stop call on a task that the
liveness check reports not running fails with NotRunning and sends no
signal; targeting the stale task directory 1 by id, the code never
consults the liveness check (which here reports not running) and calls
os.kill on the recorded pid 42. With no live process holding pid 42 the
uncaught ProcessLookupError propagates; with an unrelated process of this
user holding the recycled pid 42, SIGTERM is delivered to it and the call
returns after the first poll. Either way the claimed NotRunning outcome
does not occur. -/
theorem c5_counterexample :
    find_task_by_id sysStale "1" = some taskStale ∧
    is_task_running sysStale.procs taskStale = false ∧
    (stop_task sysStale [] [] [[]] (some "1") none).1 = .raised .ProcessLookup ∧
    (stop_task sysStale [(42 : Int)] [] [[]] (some "1") none).1 = .done "42" 0 := by
  exact ⟨rfl, rfl, rfl, rfl⟩

/-- C5, amended: a stop call targeting a name fails with NotRunning, and
sends no signal, when the liveness check reports the task not running;
a stop call targeting an id skips that check and calls os.kill on the
recorded (possibly stale) pid unconditionally. The kill step raises
KeyError when the loaded task has no pid entry, ValueError when it is not
numeric, and propagates the uncaught ProcessLookupError (no live process
holds the pid) or PermissionError (the pid belongs to another user)
from os.kill; otherwise SIGTERM is delivered to whatever process holds
the pid, and the call polls the liveness check against successive process
snapshots, returning after the first snapshot that reports not-running,
looping forever when no snapshot does; the registry state is returned
unchanged, so the on-disk footprint stays intact. -/
theorem c5_stop_behavior : ∀ (sys : Sys) (own foreign : List Int)
    (tables : List ProcTable) (n : String) (t : TaskRec),
    (find_task_by_name sys n = some t →
      (is_task_running sys.procs t = false →
        stop_task sys own foreign tables none (some n) = (.raised .NotRunning, sys)) ∧
      (is_task_running sys.procs t = true →
        stop_task sys own foreign tables none (some n) =
          (killAndWait t own foreign tables, sys))) ∧
    (∀ tid, find_task_by_id sys tid = some t →
      stop_task sys own foreign tables (some tid) none =
        (killAndWait t own foreign tables, sys)) ∧
    (t.pid = none → killAndWait t own foreign tables = .raised .KeyErr) ∧
    (∀ p, t.pid = some p →
      (pyInt p = none → killAndWait t own foreign tables = .raised .ValueErr) ∧
      ∀ v, pyInt p = some v →
        (own.contains v = false → foreign.contains v = true →
          killAndWait t own foreign tables = .raised .Permission) ∧
        (own.contains v = false → foreign.contains v = false →
          killAndWait t own foreign tables = .raised .ProcessLookup) ∧
        (own.contains v = true →
          (∀ k, pollUntilDead tables t = some k →
            killAndWait t own foreign tables = .done p k ∧
            (∃ tb, tables.get? k = some tb ∧ is_task_running tb t = false) ∧
            (∀ j, j < k →
              ∃ tb, tables.get? j = some tb ∧ is_task_running tb t = true)) ∧
          (pollUntilDead tables t = none →
            killAndWait t own foreign tables = .diverges p))) := by
  intro sys own foreign tables n t
  refine ⟨fun hf => ⟨fun hr => ?_, fun hr => ?_⟩, fun tid hf => ?_, fun hp => ?_,
    fun p hp => ⟨fun hpi => ?_, fun v hpi => ⟨fun ho hf2 => ?_, fun ho hf2 => ?_,
      fun ho => ⟨fun k hpoll => ?_, fun hpoll => ?_⟩⟩⟩⟩
  · simp [stop_task, hf, hr]
  · simp [stop_task, hf, hr]
  · simp [stop_task, hf]
  · simp [killAndWait, hp]
  · simp [killAndWait, hp, hpi]
  · have ho2 : v ∉ own := by simpa using ho
    have hf3 : v ∈ foreign := by simpa using hf2
    simp [killAndWait, hp, hpi, osKill, ho2, hf3]
  · have ho2 : v ∉ own := by simpa using ho
    have hf3 : v ∉ foreign := by simpa using hf2
    simp [killAndWait, hp, hpi, osKill, ho2, hf3]
  · refine ⟨?_, (pollUntilDead_spec tables t k hpoll).1, (pollUntilDead_spec tables t k hpoll).2⟩
    have ho2 : v ∈ own := by simpa using ho
    simp [killAndWait, hp, hpi, osKill, ho2, hpoll]
  · have ho2 : v ∈ own := by simpa using ho
    simp [killAndWait, hp, hpi, osKill, ho2, hpoll]

/-- C5, witness: stopping the running task bar-2 of sysLs by name signals
pid 42 (whose process is alive and owned by this user) and returns after
the first snapshot without it. -/
theorem c5_witness :
    stop_task sysLs [(42 : Int)] [] [[]] none (some "bar") = (.done "42" 0, sysLs) := by
  have h := ((c5_stop_behavior sysLs [(42 : Int)] [] [[]] "bar"
    { recBar with pid := some "42" }).1 rfl).2 rfl
  rw [h]
  rfl

/-- C6, counterexample: the claim says a concurrent reader of a record
write observes either the complete old or the complete new content; the
truncating write of the source also exposes the empty file, which is
neither. -/
theorem c6_counterexample :
    ¬ ∀ s ∈ writeTrace ['a'] ['b', 'c'], s = ['a'] ∨ s = ['b', 'c'] := by
  intro h
  rcases h [] (by decide) with h2 | h2 <;> exact absurd h2 (by decide)

/-- C6, amended: a record write truncates the file in place and then
appends the new serialized record, all while the writer holds the
registry lock; a concurrent reader can observe the old content or any
prefix of the new content, including the empty file, but never
interleaved old and new data, and the final observable state is the
complete new record. -/
theorem c6_write_trace : ∀ (old new : List Char),
    (∀ s ∈ writeTrace old new, s = old ∨ s <+: new) ∧
    new ∈ writeTrace old new ∧
    (writeTrace old new).head? = some old := by
  intro old new
  refine ⟨?_, ?_, rfl⟩
  · intro s hs
    rw [writeTrace] at hs
    rcases List.mem_cons.mp hs with h | h
    · exact Or.inl h
    · right
      simp only [List.mem_map] at h
      obtain ⟨k, _, hk⟩ := h
      rw [← hk]
      exact List.take_prefix k new
  · rw [writeTrace]
    refine List.mem_cons.mpr (Or.inr ?_)
    simp only [List.mem_map]
    exact ⟨new.length, by simp, List.take_length new⟩

/-- C6, witness: the empty intermediate state of a concrete write is a
prefix of the new content. -/
theorem c6_witness : ([] : List Char) = ['a'] ∨ ([] : List Char) <+: ['b'] :=
  (c6_write_trace ['a'] ['b']).1 [] (by decide)

lemma find?_range'_some {p : Nat → Bool} :
    ∀ (n s i : Nat), (List.range' s n).find? p = some i →
      p i = true ∧ s ≤ i ∧ i < s + n ∧ ∀ j, s ≤ j → j < i → p j = false := by
  intro n
  induction n with
  | zero => intro s i h; simp [List.range'] at h
  | succ m ih =>
    intro s i h
    rw [List.range'_succ, List.find?_cons] at h
    by_cases hs : p s
    · rw [hs] at h
      obtain rfl : s = i := by injection h
      exact ⟨hs, le_refl s, by omega, fun j h1 h2 => absurd h1 (by omega)⟩
    · rw [Bool.not_eq_true] at hs
      rw [hs] at h
      obtain ⟨h1, h2, h3, h4⟩ := ih (s + 1) i h
      refine ⟨h1, by omega, by omega, fun j hj1 hj2 => ?_⟩
      rcases Nat.eq_or_lt_of_le hj1 with heq | hlt
      · rw [← heq]; exact hs
      · exact h4 j hlt hj2

lemma find?_range'_none {p : Nat → Bool} (n s : Nat) :
    (List.range' s n).find? p = none ↔ ∀ j, s ≤ j → j < s + n → p j = false := by
  rw [List.find?_eq_none]
  constructor
  · intro h j h1 h2
    have h3 := h j (List.mem_range'_1.mpr ⟨h1, h2⟩)
    simpa using h3
  · intro h x hx
    have hx2 := List.mem_range'_1.mp hx
    simp [h x hx2.1 hx2.2]

lemma existing_ids_append_single (filenames : List String) (label s : String)
    (h : extractId label = some s) :
    existing_ids (filenames ++ [label]) = existing_ids filenames ++ [s] := by
  rw [existing_ids, existing_ids, List.filterMap_append]
  simp [h]

/-- C3: generate_id returns the decimal string of the smallest value of
1..9999 that is not among the ids of the existing directory names, fails
with ExhaustedIds exactly when every value of 1..9999 is taken, and when
the freshly created directory label carries the allocated id, a second
allocation can never return the same id again. -/
theorem c3_generate_id : ∀ (filenames : List String),
    (∀ s, generate_id filenames = .ok s →
      ∃ i : Nat, 1 ≤ i ∧ i ≤ 9999 ∧ s = toString i ∧
        s ∉ existing_ids filenames ∧
        ∀ j : Nat, 1 ≤ j → j < i → toString j ∈ existing_ids filenames) ∧
    (generate_id filenames = .error .ExhaustedIds ↔
      ∀ i : Nat, 1 ≤ i → i ≤ 9999 → toString i ∈ existing_ids filenames) ∧
    (∀ label s s2, generate_id filenames = .ok s → extractId label = some s →
      generate_id (filenames ++ [label]) = .ok s2 → s2 ≠ s) := by
  intro filenames
  have hmain : ∀ (fns : List String) s, generate_id fns = .ok s →
      ∃ i : Nat, 1 ≤ i ∧ i ≤ 9999 ∧ s = toString i ∧
        s ∉ existing_ids fns ∧
        ∀ j : Nat, 1 ≤ j → j < i → toString j ∈ existing_ids fns := by
    intro fns s hok
    rw [generate_id] at hok
    cases hfind : (List.range' 1 9999).find?
        (fun i => !(existing_ids fns).contains (toString i)) with
    | none => rw [hfind] at hok; simp at hok
    | some i =>
      rw [hfind] at hok
      obtain rfl : toString i = s := by injection hok
      obtain ⟨h1, h2, h3, h4⟩ := find?_range'_some 9999 1 i hfind
      refine ⟨i, h2, by omega, rfl, ?_, fun j hj1 hj2 => ?_⟩
      · intro hmem
        simp [hmem] at h1
      · have h5 := h4 j hj1 hj2
        simpa using h5
  refine ⟨hmain filenames, ?_, ?_⟩
  · rw [generate_id]
    cases hfind : (List.range' 1 9999).find?
        (fun i => !(existing_ids filenames).contains (toString i)) with
    | some i =>
      obtain ⟨h1, h2, h3, _⟩ := find?_range'_some 9999 1 i hfind
      constructor
      · intro h; simp at h
      · intro hall
        exact absurd h1 (by simp [hall i h2 (by omega)])
    | none =>
      constructor
      · intro _ i hi1 hi2
        have h3 := (find?_range'_none 9999 1).mp hfind i hi1 (by omega)
        simpa using h3
      · intro _; rfl
  · intro label s s2 h1 hex h2
    obtain ⟨i, _, _, rfl, _, _⟩ := hmain filenames s h1
    obtain ⟨i2, _, _, rfl, hnotin, _⟩ := hmain (filenames ++ [label]) s2 h2
    intro heq
    rw [heq] at hnotin
    exact hnotin (by
      rw [existing_ids_append_single filenames label (toString i) hex]
      simp)

/-- C3, witness: on an empty registry the allocator returns 1; after a
directory labelled 1 exists it returns 2, never 1 again. -/
theorem c3_witness :
    generate_id [] = .ok "1" ∧ extractId "1" = some "1" ∧
    generate_id ["1"] = .ok "2" ∧ ("2" : String) ≠ "1" :=
  ⟨rfl, rfl, rfl, (c3_generate_id []).2.2 "1" "1" "2" rfl rfl rfl⟩

lemma create_pidfile_dirs (sys : Sys) (t : TaskRec) :
    (create_pidfile sys t).dirs = sys.dirs := by
  rw [create_pidfile]
  cases t.pid <;> rfl

lemma putDir_pidfiles (sys : Sys) (fn : String) (rec2 : TaskRec) :
    (putDir sys fn rec2).pidfiles = sys.pidfiles := by
  rw [putDir]
  by_cases h : sys.dirs.any (fun d => d.filename == fn)
  · rw [if_pos h]
  · rw [if_neg h]

lemma create_pidfile_some (sys : Sys) (t : TaskRec) (p : String) (hp : t.pid = some p) :
    (create_pidfile sys t).pidfiles (get_task_label t) = some p := by
  rw [create_pidfile, hp]
  simp

lemma create_pidfile_other (sys : Sys) (t : TaskRec) (l : String)
    (hl : l ≠ get_task_label t) : (create_pidfile sys t).pidfiles l = sys.pidfiles l := by
  rw [create_pidfile]
  cases t.pid with
  | none => rfl
  | some p => simp [hl]

lemma create_pidfile_no_pid (sys : Sys) (t : TaskRec) (h : t.pid = none) :
    create_pidfile sys t = sys := by
  rw [create_pidfile, h]

lemma create_cache_dirs (sys : Sys) (task : TaskRec) (so : Bool) (now : Nat) :
    (create_task_cache sys task so now).2.dirs =
      (putDir sys (get_task_label task)
        (dumpRec (create_task_cache sys task so now).1)).dirs := by
  rw [create_task_cache]
  cases so <;> simp [create_pidfile_dirs]

lemma create_cache_fst_pid (sys : Sys) (task : TaskRec) (so : Bool) (now : Nat) :
    (create_task_cache sys task so now).1.pid = task.pid := by
  rw [create_task_cache]
  cases so <;> rfl

lemma update_cache_dirs (sys : Sys) (task : TaskRec) :
    (update_task_cache sys task).dirs =
      (putDir sys (get_task_label task) (dumpRec task)).dirs := by
  rw [update_task_cache, create_pidfile_dirs]

/-- C10: create and update strip the pid before writing the record, so
every directory entry after the write is either an untouched entry of the
previous state or carries a record without pid, and the entry written for
the task exists with the pid-free record; the pid goes only to the
pidfile named after the task label (other pidfiles keep their content and
nothing changes when the task has no pid); and a task loaded from a
pid-free record carries a pid exactly when that pidfile exists. -/
theorem c10_pid_storage : ∀ (sys : Sys) (task : TaskRec) (so : Bool) (now : Nat),
    (∀ d ∈ (create_task_cache sys task so now).2.dirs,
      d ∈ sys.dirs ∨ d.record.pid = none) ∧
    (∃ d ∈ (create_task_cache sys task so now).2.dirs,
      d.filename = get_task_label task ∧
      d.record = dumpRec (create_task_cache sys task so now).1 ∧ d.record.pid = none) ∧
    ((create_task_cache sys task so now).1.pid = task.pid) ∧
    (task.pid = none → (create_task_cache sys task so now).2.pidfiles = sys.pidfiles) ∧
    (∀ d ∈ (update_task_cache sys task).dirs, d ∈ sys.dirs ∨ d.record.pid = none) ∧
    (∃ d ∈ (update_task_cache sys task).dirs,
      d.filename = get_task_label task ∧ d.record = dumpRec task ∧ d.record.pid = none) ∧
    (∀ p, task.pid = some p →
      (update_task_cache sys task).pidfiles (get_task_label task) = some p) ∧
    (∀ l, l ≠ get_task_label task →
      (update_task_cache sys task).pidfiles l = sys.pidfiles l) ∧
    (task.pid = none → (update_task_cache sys task).pidfiles = sys.pidfiles) ∧
    (∀ d : DirEntry, d.record.pid = none →
      ((get_task_from_cache_file sys d).pid.isSome ↔
        (sys.pidfiles (get_task_label d.record)).isSome)) := by
  intro sys task so now
  refine ⟨?_, ?_, create_cache_fst_pid sys task so now, ?_, ?_, ?_, ?_, ?_, ?_, ?_⟩
  · intro d hd
    rw [create_cache_dirs] at hd
    have h := putDir_mem sys (get_task_label task)
      (dumpRec (create_task_cache sys task so now).1) d hd
    rcases h with h | h
    · exact Or.inl h
    · exact Or.inr (by rw [h]; rfl)
  · obtain ⟨d, hd, hfn, hrec⟩ := putDir_exists sys (get_task_label task)
      (dumpRec (create_task_cache sys task so now).1)
    refine ⟨d, ?_, hfn, hrec, by rw [hrec]; rfl⟩
    rw [create_cache_dirs]
    exact hd
  · intro hp
    rw [create_task_cache]
    simp only []
    rw [create_pidfile_no_pid _ _ (by cases so <;> simpa using hp), putDir_pidfiles]
  · intro d hd
    rw [update_cache_dirs] at hd
    have h := putDir_mem sys (get_task_label task) (dumpRec task) d hd
    rcases h with h | h
    · exact Or.inl h
    · exact Or.inr (by rw [h]; rfl)
  · obtain ⟨d, hd, hfn, hrec⟩ := putDir_exists sys (get_task_label task) (dumpRec task)
    refine ⟨d, ?_, hfn, hrec, by rw [hrec]; rfl⟩
    rw [update_cache_dirs]
    exact hd
  · intro p hp
    rw [update_task_cache]
    exact create_pidfile_some _ task p hp
  · intro l hl
    rw [update_task_cache, create_pidfile_other _ task l hl, putDir_pidfiles]
  · intro hp
    rw [update_task_cache, create_pidfile_no_pid _ task hp, putDir_pidfiles]
  · intro d hd
    rw [get_task_from_cache_file]
    cases hpf : sys.pidfiles (get_task_label d.record) with
    | none => simp [hd]
    | some p => simp

/-- C10, witness: updating the pid-free task foo leaves the pidfiles
untouched, and loading the entry of sysFoo carries no pid since no
pidfile exists. -/
theorem c10_witness :
    (update_task_cache sysFoo recFoo).pidfiles = sysFoo.pidfiles ∧
    ((get_task_from_cache_file sysFoo ⟨"foo-1", recFoo⟩).pid.isSome ↔
      (sysFoo.pidfiles (get_task_label recFoo)).isSome) :=
  ⟨(c10_pid_storage sysFoo recFoo false 9).2.2.2.2.2.2.2.2.1 rfl,
   (c10_pid_storage sysFoo recFoo false 9).2.2.2.2.2.2.2.2.2 ⟨"foo-1", recFoo⟩ rfl⟩

lemma reserved_eq_lock (fn : String) :
    RESERVED_FILE_NAMES.contains fn = true ↔ fn = "lock" := by
  simp [RESERVED_FILE_NAMES, LOCK_FILE_NAME]

lemma id_pred_eq (tid : String) (h : tid ≠ "lock") (d : DirEntry) :
    (idOfFilename d.filename == tid) =
      ((!RESERVED_FILE_NAMES.contains d.filename) && (idOfFilename d.filename == tid)) := by
  by_cases hres : RESERVED_FILE_NAMES.contains d.filename = true
  · have hfn : d.filename = "lock" := (reserved_eq_lock d.filename).mp hres
    rw [hres, hfn]
    have hid : idOfFilename "lock" = "lock" := by decide
    rw [hid]
    simp [Ne.symm h]
  · rw [Bool.not_eq_true] at hres
    rw [hres]
    simp

lemma name_pred_eq (sys : Sys) (name : String)
    (h : ∀ d ∈ sys.dirs, (splitDash d.filename).length = 1 →
      (nameOfFilename d.filename == name) = false) :
    ∀ d ∈ sys.dirs, loopNameMatch d.filename name =
      ((!RESERVED_FILE_NAMES.contains d.filename) && (nameOfFilename d.filename == name)) := by
  intro d hd
  rw [loopNameMatch]
  by_cases hlen : (splitDash d.filename).length = 1
  · rw [if_pos hlen]
    by_cases hres : RESERVED_FILE_NAMES.contains d.filename = true
    · rw [hres]; simp
    · rw [Bool.not_eq_true] at hres
      rw [hres, h d hd hlen]
      simp
  · rw [if_neg hlen]
    have hres : RESERVED_FILE_NAMES.contains d.filename = false := by
      rw [← Bool.not_eq_true]
      intro hc
      have hfn := (reserved_eq_lock d.filename).mp hc
      rw [hfn] at hlen
      exact hlen (by decide)
    rw [hres]
    simp

/-- C4: remove by id (for an id that is not the reserved lock name) and
remove by name (over a registry whose dash-free directory names do not
collide with the name, as holds for every registry this program writes)
fail with NotFound when no matching task exists, fail with Conflict and
delete nothing when the matching task is reported running, and otherwise
delete exactly the matching directory, leaving every other entry. -/
theorem c4_remove : ∀ (sys : Sys) (tid name : String),
    (tid ≠ "lock" →
      (find_task_by_id sys tid = none →
        remove_task_by_id sys tid = (.error .NotFound, sys)) ∧
      (∀ t, find_task_by_id sys tid = some t → is_task_running sys.procs t = true →
        remove_task_by_id sys tid = (.error .Conflict, sys)) ∧
      (∀ t, find_task_by_id sys tid = some t → is_task_running sys.procs t = false →
        ∃ d ∈ sys.dirs, (idOfFilename d.filename == tid) = true ∧
          remove_task_by_id sys tid =
            (.ok (), { sys with dirs := sys.dirs.filter (fun e => e.filename != d.filename) }))) ∧
    ((∀ d ∈ sys.dirs, (splitDash d.filename).length = 1 →
        (nameOfFilename d.filename == name) = false) →
      (find_task_by_name sys name = none →
        remove_task_by_name sys name = (.error .NotFound, sys)) ∧
      (∀ t, find_task_by_name sys name = some t → is_task_running sys.procs t = true →
        remove_task_by_name sys name = (.error .Conflict, sys)) ∧
      (∀ t, find_task_by_name sys name = some t → is_task_running sys.procs t = false →
        ∃ d ∈ sys.dirs, loopNameMatch d.filename name = true ∧
          remove_task_by_name sys name =
            (.ok (), { sys with dirs := sys.dirs.filter (fun e => e.filename != d.filename) }))) := by
  intro sys tid name
  constructor
  · intro htid
    have hpred : sys.dirs.find? (fun d => idOfFilename d.filename == tid) =
        sys.dirs.find? (fun d =>
          (!RESERVED_FILE_NAMES.contains d.filename) && (idOfFilename d.filename == tid)) :=
      find?_congr_pred sys.dirs (fun d _ => id_pred_eq tid htid d)
    refine ⟨?_, ?_, ?_⟩
    · intro hnone
      rw [find_task_by_id, Option.map_eq_none'] at hnone
      rw [remove_task_by_id, hpred, hnone]
    · intro t hsome hrun
      obtain ⟨d, hfind⟩ : ∃ d, sys.dirs.find? (fun d =>
          (!RESERVED_FILE_NAMES.contains d.filename) && (idOfFilename d.filename == tid)) = some d := by
        cases hf2 : sys.dirs.find? (fun d =>
            (!RESERVED_FILE_NAMES.contains d.filename) && (idOfFilename d.filename == tid)) with
        | none => rw [find_task_by_id, hf2] at hsome; simp at hsome
        | some d => exact ⟨d, rfl⟩
      rw [remove_task_by_id, hpred, hfind]
      dsimp only []
      rw [hsome]
      dsimp only []
      rw [if_pos hrun]
    · intro t hsome hrun
      obtain ⟨d, hfind⟩ : ∃ d, sys.dirs.find? (fun d =>
          (!RESERVED_FILE_NAMES.contains d.filename) && (idOfFilename d.filename == tid)) = some d := by
        cases hf2 : sys.dirs.find? (fun d =>
            (!RESERVED_FILE_NAMES.contains d.filename) && (idOfFilename d.filename == tid)) with
        | none => rw [find_task_by_id, hf2] at hsome; simp at hsome
        | some d => exact ⟨d, rfl⟩
      have hmem := List.mem_of_find?_eq_some (hpred.trans hfind)
      have hp := List.find?_some (hpred.trans hfind)
      refine ⟨d, hmem, by simpa using hp, ?_⟩
      rw [remove_task_by_id, hpred, hfind]
      dsimp only []
      rw [hsome]
      dsimp only []
      rw [if_neg (by simp [hrun])]
  · intro hclean
    have hpred : sys.dirs.find? (fun d => loopNameMatch d.filename name) =
        sys.dirs.find? (fun d =>
          (!RESERVED_FILE_NAMES.contains d.filename) && (nameOfFilename d.filename == name)) :=
      find?_congr_pred sys.dirs (name_pred_eq sys name hclean)
    refine ⟨?_, ?_, ?_⟩
    · intro hnone
      rw [find_task_by_name, Option.map_eq_none'] at hnone
      rw [remove_task_by_name, hpred, hnone]
    · intro t hsome hrun
      obtain ⟨d, hfind⟩ : ∃ d, sys.dirs.find? (fun d =>
          (!RESERVED_FILE_NAMES.contains d.filename) && (nameOfFilename d.filename == name)) = some d := by
        cases hf2 : sys.dirs.find? (fun d =>
            (!RESERVED_FILE_NAMES.contains d.filename) && (nameOfFilename d.filename == name)) with
        | none => rw [find_task_by_name, hf2] at hsome; simp at hsome
        | some d => exact ⟨d, rfl⟩
      rw [remove_task_by_name, hpred, hfind]
      dsimp only []
      rw [hsome]
      dsimp only []
      rw [if_pos hrun]
    · intro t hsome hrun
      obtain ⟨d, hfind⟩ : ∃ d, sys.dirs.find? (fun d =>
          (!RESERVED_FILE_NAMES.contains d.filename) && (nameOfFilename d.filename == name)) = some d := by
        cases hf2 : sys.dirs.find? (fun d =>
            (!RESERVED_FILE_NAMES.contains d.filename) && (nameOfFilename d.filename == name)) with
        | none => rw [find_task_by_name, hf2] at hsome; simp at hsome
        | some d => exact ⟨d, rfl⟩
      have hmem := List.mem_of_find?_eq_some (hpred.trans hfind)
      have hp := List.find?_some (hpred.trans hfind)
      refine ⟨d, hmem, by simpa using hp, ?_⟩
      rw [remove_task_by_name, hpred, hfind]
      dsimp only []
      rw [hsome]
      dsimp only []
      rw [if_neg (by simp [hrun])]

/-- C4, witness: removing the stopped task of sysFoo by id 1 succeeds and
deletes exactly its directory. -/
theorem c4_witness :
    ("1" : String) ≠ "lock" ∧
    ∃ d ∈ sysFoo.dirs, (idOfFilename d.filename == "1") = true ∧
      remove_task_by_id sysFoo "1" =
        (.ok (), { sysFoo with dirs := sysFoo.dirs.filter (fun e => e.filename != d.filename) }) :=
  ⟨by decide, ((c4_remove sysFoo "1" "x").1 (by decide)).2.2 recFoo rfl rfl⟩

lemma lsRow_eq_some_iff (sys : Sys) (now : Nat) (all : Bool) (cmd : List String)
    (d : DirEntry) (r : Row) :
    lsRow sys now all cmd d = some r ↔
      RESERVED_FILE_NAMES.contains d.filename = false ∧
      (cmd ≠ [] → matchesFilter cmd d.filename = true) ∧
      ∃ st, (get_task_from_cache_file sys d).started_at = some st ∧
        ((is_task_running sys.procs (get_task_from_cache_file sys d) = true ∧
            r = runningRow (get_task_from_cache_file sys d) now st) ∨
         (is_task_running sys.procs (get_task_from_cache_file sys d) = false ∧
            (all = true ∨ cmd ≠ []) ∧
            r = stoppedRow (get_task_from_cache_file sys d) st)) := by
  rw [lsRow]
  by_cases hres : RESERVED_FILE_NAMES.contains d.filename = true
  · rw [if_pos hres]
    constructor
    · intro hc; exact absurd hc (by simp)
    · rintro ⟨h1, -, -⟩
      rw [hres] at h1
      exact absurd h1 (by simp)
  · have hres2 : RESERVED_FILE_NAMES.contains d.filename = false := by simpa using hres
    rw [if_neg hres]
    by_cases hskip : (!cmd.isEmpty && !matchesFilter cmd d.filename) = true
    · rw [if_pos hskip]
      obtain ⟨h1, hm⟩ : cmd.isEmpty = false ∧ matchesFilter cmd d.filename = false := by
        simpa using hskip
      have hne : cmd ≠ [] := by
        intro hc
        rw [hc] at h1
        exact absurd h1 (by decide)
      constructor
      · intro hc; exact absurd hc (by simp)
      · rintro ⟨-, hc2, -⟩
        rw [hc2 hne] at hm
        exact absurd hm (by simp)
    · have hc2 : cmd ≠ [] → matchesFilter cmd d.filename = true := by
        intro hne
        by_contra hmc
        apply hskip
        have hm2 : matchesFilter cmd d.filename = false := by simpa using hmc
        have hie : cmd.isEmpty = false := by
          cases cmd
          · exact absurd rfl hne
          · rfl
        rw [hie, hm2]
        rfl
      rw [if_neg hskip]
      dsimp only []
      cases hst : (get_task_from_cache_file sys d).started_at with
      | none => simp
      | some st =>
        dsimp only []
        by_cases hrun : is_task_running sys.procs (get_task_from_cache_file sys d) = true
        · rw [if_pos hrun]
          constructor
          · intro h
            obtain rfl := Option.some.inj h
            exact ⟨hres2, hc2, st, rfl, Or.inl ⟨hrun, rfl⟩⟩
          · rintro ⟨-, -, st2, hst2, hdisj⟩
            obtain rfl : st = st2 := Option.some.inj hst2
            rcases hdisj with ⟨-, rfl⟩ | ⟨hrf, -, -⟩
            · rfl
            · rw [hrun] at hrf
              exact absurd hrf (by simp)
        · have hrunf : is_task_running sys.procs (get_task_from_cache_file sys d) = false := by
            simpa using hrun
          rw [if_neg hrun]
          by_cases hinc : (all || (!cmd.isEmpty && matchesFilter cmd d.filename)) = true
          · rw [if_pos hinc]
            have hcond : all = true ∨ cmd ≠ [] := by
              rcases (by simpa using hinc :
                  all = true ∨ ((!cmd.isEmpty) = true ∧ matchesFilter cmd d.filename = true))
                with h | ⟨h1, -⟩
              · exact Or.inl h
              · right
                intro hc
                rw [hc] at h1
                exact absurd h1 (by decide)
            constructor
            · intro h
              obtain rfl := Option.some.inj h
              exact ⟨hres2, hc2, st, rfl, Or.inr ⟨hrunf, hcond, rfl⟩⟩
            · rintro ⟨-, -, st2, hst2, hdisj⟩
              obtain rfl : st = st2 := Option.some.inj hst2
              rcases hdisj with ⟨hrt, -⟩ | ⟨-, -, rfl⟩
              · rw [hrunf] at hrt
                exact absurd hrt (by simp)
              · rfl
          · rw [if_neg hinc]
            constructor
            · intro hc; exact absurd hc (by simp)
            · rintro ⟨-, hcm, st2, -, hdisj⟩
              rcases hdisj with ⟨hrt, -⟩ | ⟨-, hcond, -⟩
              · rw [hrunf] at hrt
                exact absurd hrt (by simp)
              · refine absurd ?_ hinc
                rcases hcond with h | h
                · rw [h]; rfl
                · have hie : cmd.isEmpty = false := by
                    cases cmd
                    · exact absurd rfl h
                    · rfl
                  rw [hie, hcm h]
                  cases all <;> rfl

lemma mem_ls_iff (sys : Sys) (now : Nat) (all : Bool) (cmd : List String) (r : Row) :
    r ∈ ls sys now all cmd ↔ ∃ d ∈ sys.dirs, lsRow sys now all cmd d = some r := by
  rw [ls, List.Perm.mem_iff (List.mergeSort_perm _ _), List.mem_filterMap]

lemma ls_sorted (sys : Sys) (now : Nat) (all : Bool) (cmd : List String) :
    (ls sys now all cmd).Pairwise (fun a b => a.started_at ≤ b.started_at) := by
  rw [ls]
  refine List.Pairwise.imp ?_
    (List.sorted_mergeSort ?_ ?_ (sys.dirs.filterMap (lsRow sys now all cmd)))
  · intro a b hab; simpa using hab
  · intro a b c hab hbc
    simp only [decide_eq_true_eq] at hab hbc ⊢
    omega
  · intro a b
    simp only [Bool.or_eq_true, decide_eq_true_eq]
    omega

/-- C9: the ls listing is always sorted by started_at ascending; with no
flag and no filter it holds exactly the rows of the running tasks (with
pid and computed uptime); with all it additionally holds every stopped
task as a row with dashes for pid and uptime; with an explicit id or name
filter it holds exactly the matching tasks, running or stopped. -/
theorem c9_ls : ∀ (sys : Sys) (now : Nat) (r : Row),
    (∀ all cmd, (ls sys now all cmd).Pairwise (fun a b => a.started_at ≤ b.started_at)) ∧
    ((r ∈ ls sys now false []) ↔ ∃ d ∈ sys.dirs,
      RESERVED_FILE_NAMES.contains d.filename = false ∧
      ∃ st, (get_task_from_cache_file sys d).started_at = some st ∧
        is_task_running sys.procs (get_task_from_cache_file sys d) = true ∧
        r = runningRow (get_task_from_cache_file sys d) now st) ∧
    ((r ∈ ls sys now true []) ↔ ∃ d ∈ sys.dirs,
      RESERVED_FILE_NAMES.contains d.filename = false ∧
      ∃ st, (get_task_from_cache_file sys d).started_at = some st ∧
        ((is_task_running sys.procs (get_task_from_cache_file sys d) = true ∧
            r = runningRow (get_task_from_cache_file sys d) now st) ∨
         (is_task_running sys.procs (get_task_from_cache_file sys d) = false ∧
            r = stoppedRow (get_task_from_cache_file sys d) st))) ∧
    (∀ cmd, cmd ≠ [] → ((r ∈ ls sys now false cmd) ↔ ∃ d ∈ sys.dirs,
      RESERVED_FILE_NAMES.contains d.filename = false ∧
      matchesFilter cmd d.filename = true ∧
      ∃ st, (get_task_from_cache_file sys d).started_at = some st ∧
        ((is_task_running sys.procs (get_task_from_cache_file sys d) = true ∧
            r = runningRow (get_task_from_cache_file sys d) now st) ∨
         (is_task_running sys.procs (get_task_from_cache_file sys d) = false ∧
            r = stoppedRow (get_task_from_cache_file sys d) st)))) := by
  intro sys now r
  refine ⟨ls_sorted sys now, ?_, ?_, ?_⟩
  · rw [mem_ls_iff]
    apply exists_congr; intro d
    apply and_congr_right; intro _
    rw [lsRow_eq_some_iff]
    constructor
    · rintro ⟨h1, -, st, hst, hdisj⟩
      rcases hdisj with ⟨hr, rfl⟩ | ⟨-, hcond, -⟩
      · exact ⟨h1, st, hst, hr, rfl⟩
      · rcases hcond with hc | hc
        · exact absurd hc (by simp)
        · exact absurd rfl hc
    · rintro ⟨h1, st, hst, hr, rfl⟩
      exact ⟨h1, fun hne => absurd rfl hne, st, hst, Or.inl ⟨hr, rfl⟩⟩
  · rw [mem_ls_iff]
    apply exists_congr; intro d
    apply and_congr_right; intro _
    rw [lsRow_eq_some_iff]
    constructor
    · rintro ⟨h1, -, st, hst, hdisj⟩
      rcases hdisj with ⟨hr, rfl⟩ | ⟨hr, -, rfl⟩
      · exact ⟨h1, st, hst, Or.inl ⟨hr, rfl⟩⟩
      · exact ⟨h1, st, hst, Or.inr ⟨hr, rfl⟩⟩
    · rintro ⟨h1, st, hst, hdisj⟩
      rcases hdisj with ⟨hr, rfl⟩ | ⟨hr, rfl⟩
      · exact ⟨h1, fun hne => absurd rfl hne, st, hst, Or.inl ⟨hr, rfl⟩⟩
      · exact ⟨h1, fun hne => absurd rfl hne, st, hst, Or.inr ⟨hr, Or.inl rfl, rfl⟩⟩
  · intro cmd hne
    rw [mem_ls_iff]
    apply exists_congr; intro d
    apply and_congr_right; intro _
    rw [lsRow_eq_some_iff]
    constructor
    · rintro ⟨h1, hc2, st, hst, hdisj⟩
      rcases hdisj with ⟨hr, rfl⟩ | ⟨hr, -, rfl⟩
      · exact ⟨h1, hc2 hne, st, hst, Or.inl ⟨hr, rfl⟩⟩
      · exact ⟨h1, hc2 hne, st, hst, Or.inr ⟨hr, rfl⟩⟩
    · rintro ⟨h1, hm, st, hst, hdisj⟩
      rcases hdisj with ⟨hr, rfl⟩ | ⟨hr, rfl⟩
      · exact ⟨h1, fun _ => hm, st, hst, Or.inl ⟨hr, rfl⟩⟩
      · exact ⟨h1, fun _ => hm, st, hst, Or.inr ⟨hr, Or.inr hne, rfl⟩⟩

/-- C9, witness: under the filter foo the stopped task foo-1 of sysLs is
listed as a row with dashes. -/
theorem c9_witness :
    stoppedRow (get_task_from_cache_file sysLs ⟨"foo-1", recFoo⟩) 50 ∈
      ls sysLs 110 false ["foo"] :=
  ((c9_ls sysLs 110 (stoppedRow (get_task_from_cache_file sysLs ⟨"foo-1", recFoo⟩) 50)).2.2.2
      ["foo"] (by decide)).mpr
    ⟨⟨"foo-1", recFoo⟩, by decide, rfl, by decide, 50, rfl, Or.inr ⟨rfl, rfl⟩⟩

lemma isPrefixOf_cons_repl (c : Nat) (rest : List Nat) (k : Nat) (hc : (c == 97) = false) :
    (c :: rest).isPrefixOf (List.replicate k 97) = false := by
  cases k with
  | zero => rfl
  | succ n => simp [List.replicate_succ, List.isPrefixOf, hc]

lemma suf_repl (k : Nat) : Tailer.suffix_line_terminator (List.replicate k 97) = none := by
  rw [Tailer.suffix_line_terminator, List.find?_eq_none]
  intro t ht
  simp only [LINE_TERMINATORS] at ht
  fin_cases ht <;>
    simp [List.isSuffixOf, List.reverse_replicate, isPrefixOf_cons_repl]

lemma take_ALine (dw : Nat) (h : dw ≤ 1023) : ALine.take dw = List.replicate dw 97 := by
  show (List.replicate 1023 97 ++ [10]).take dw = _
  rw [List.take_append_eq_append_take, List.take_replicate, List.length_replicate,
    Nat.min_eq_left h, Nat.sub_eq_zero_of_le h, List.take_zero, List.append_nil]

lemma prevGo_exhaust : ∀ fuel dw, dw ≤ 1023 → dw ≤ fuel →
    Tailer.prevInnerGo ALine 1024 0 fuel dw = .exhausted := by
  intro fuel
  induction fuel with
  | zero =>
    intro dw _ h2
    rw [Nat.le_zero.mp h2]
    rfl
  | succ n ih =>
    intro dw h1 h2
    cases dw with
    | zero => rfl
    | succ m =>
      rw [Tailer.prevInnerGo, take_ALine _ h1, suf_repl]
      exact ih m (le_trans (Nat.le_succ m) h1) (Nat.lt_succ_iff.mp h2)

lemma revALine : ALine.reverse = 10 :: List.replicate 1023 97 := by
  simp only [ALine, List.reverse_append, List.reverse_replicate, List.reverse_cons,
    List.reverse_nil, List.nil_append, List.cons_append]

lemma sufALine : Tailer.suffix_line_terminator ALine = some [10] := by
  have h1 : List.isSuffixOf [13, 10] ALine = false := by
    rw [List.isSuffixOf, revALine]
    simp [List.isPrefixOf, isPrefixOf_cons_repl]
  have h2 : List.isSuffixOf [10] ALine = true := by
    rw [List.isSuffixOf, revALine]
    simp [List.isPrefixOf]
  rw [Tailer.suffix_line_terminator, LINE_TERMINATORS]
  simp [List.find?, h1, h2]

lemma lenALine : ALine.length = 1024 := by
  rw [ALine, List.length_append, List.length_replicate]
  rfl

lemma takeALine_all : ALine.take 1024 = ALine := List.take_of_length_le (le_of_eq lenALine)

lemma prevInner_A : Tailer.prevInner ALine 1024 0 = .exhausted := by
  show Tailer.prevInnerGo ALine 1024 0 (1024 + 1) (1023 + 1) = .exhausted
  rw [Tailer.prevInnerGo, takeALine_all, sufALine]
  dsimp only []
  rw [if_pos (show (0 : Nat) = 0 ∧ 1023 + 1 = 1024 from ⟨rfl, by norm_num⟩)]
  rw [show (1023 + 1 - [10].length : Nat) = 1023 from rfl]
  exact prevGo_exhaust 1024 1023 (by norm_num) (by norm_num)

lemma headALine : ALine.head? = some 97 := by
  rw [ALine]
  rw [show List.replicate 1023 97 = 97 :: List.replicate 1022 97 from List.replicate_succ ..]
  rfl

lemma dropD1 : bigLineFile.data.drop 1 = ALine := by
  show (List.replicate 1024 97 ++ [10]).drop 1 = List.replicate 1023 97 ++ [10]
  rw [List.drop_append_eq_append_drop, List.drop_replicate, List.length_replicate,
    Nat.sub_eq_zero_of_le (by norm_num : (1 : Nat) ≤ 1024), List.drop_zero,
    show (1024 - 1 : Nat) = 1023 from rfl]

lemma lenD : bigLineFile.data.length = 1025 := by
  show (List.replicate 1024 97 ++ [10]).length = 1025
  rw [List.length_append, List.length_replicate]
  rfl

lemma loop2 (fuel : Nat) (D : List Nat) :
    Tailer.seekPrevLoop 1024 (fuel + 1) ⟨D, 1025⟩ 1025 1024 = .error .negativeSeek := by
  rw [Tailer.seekPrevLoop]
  norm_num [Tailer.seekSet]

lemma loop1 (fuel : Nat) (D : List Nat) (hdrop : D.drop 1 = ALine) :
    Tailer.seekPrevLoop 1024 (fuel + 1 + 1) ⟨D, 1025⟩ 1025 0 = .error .negativeSeek := by
  rw [Tailer.seekPrevLoop]
  norm_num [Tailer.seekSet, Tailer.readB, hdrop, takeALine_all, lenALine, headALine,
    prevInner_A]
  exact loop2 fuel D

lemma spl_D : Tailer.seek_previous_line 1024 ⟨bigLineFile.data, 1025⟩ = .error .negativeSeek := by
  show Tailer.seekPrevLoop 1024 (1025 + 2) _ 1025 0 = _
  exact loop1 1025 bigLineFile.data dropD1

lemma backLoop_D : Tailer.backLoop 1024 1 ⟨bigLineFile.data, 1025⟩ = .error .negativeSeek := by
  rw [Tailer.backLoop, spl_D]

lemma revD : bigLineFile.data.reverse = 10 :: List.replicate 1024 97 := by
  show (List.replicate 1024 97 ++ [10]).reverse = _
  simp only [List.reverse_append, List.reverse_replicate, List.reverse_cons,
    List.reverse_nil, List.nil_append, List.cons_append]

lemma sufD13 : List.isSuffixOf [13, 10] bigLineFile.data = false := by
  rw [List.isSuffixOf, revD]
  simp [List.isPrefixOf, isPrefixOf_cons_repl]

lemma sufD10 : List.isSuffixOf [10] bigLineFile.data = true := by
  rw [List.isSuffixOf, revD]
  simp [List.isPrefixOf]

lemma takeD : bigLineFile.data.take 1024 = List.replicate 1024 97 := by
  show (List.replicate 1024 97 ++ [10]).take 1024 = _
  rw [List.take_append_eq_append_take, List.take_replicate, List.length_replicate]
  norm_num

lemma stripD : Tailer.stripTrailingTerm bigLineFile.data = List.replicate 1024 97 := by
  rw [Tailer.stripTrailingTerm, LINE_TERMINATORS]
  simp only [List.find?, sufD13, sufD10]
  rw [lenD, show (1025 - List.length [10] : Nat) = 1024 from rfl, takeD]

lemma resplitAux_cons97 (acc rest : List Nat) :
    Tailer.resplitAux acc (97 :: rest) = Tailer.resplitAux (97 :: acc) rest := rfl

lemma resplit_repl : ∀ (k : Nat) (acc : List Nat),
    Tailer.resplitAux acc (List.replicate k 97) = [acc.reverse ++ List.replicate k 97] := by
  intro k
  induction k with
  | zero => intro acc; simp [Tailer.resplitAux]
  | succ n ih =>
    intro acc
    rw [List.replicate_succ, resplitAux_cons97, ih]
    simp [List.replicate_succ]

lemma linesOf_D : linesOf bigLineFile.data = [List.replicate 1024 97] := by
  simp only [linesOf]
  rw [stripD]
  rw [if_neg (by
    intro h
    have h2 := congrArg List.length h
    simp at h2)]
  rw [Tailer.splitlines, resplit_repl]
  simp

/-- C7: counter to the implementation working on every byte-stream file,
tail crashes on bigLineFile, a 1025-byte file holding exactly one
complete LF-terminated 1024-byte line: the backward scan reads the last
1024-byte chunk, skips its trailing terminator, finds no other
terminator, and then seeks to the negative offset 1025 - 1024 - 1024,
raising; the claim (and the intent of the Tailer, tailing like GNU tail)
expects the single line instead. -/
theorem c7_tail_long_line_crash :
    Tailer.tail 1024 1 bigLineFile = .error .negativeSeek ∧
    linesOf bigLineFile.data = [List.replicate 1024 97] := by
  refine ⟨?_, linesOf_D⟩
  rw [Tailer.tail, lenD]
  rw [show ({ bigLineFile with pos := 1025 } : BFile) = ⟨bigLineFile.data, 1025⟩ from rfl,
    backLoop_D]

/-- C8: head with a negative count shares the backward-scan primitive of
tail, so head(-1) on bigLineFile raises the same negative-seek error
instead of returning the empty list (all lines but the last one of a
one-line file). -/
theorem c8_head_negative_crash :
    Tailer.head 1024 (-1) bigLineFile = .error .negativeSeek ∧
    (linesOf bigLineFile.data).dropLast = [] := by
  refine ⟨?_, by rw [linesOf_D]; rfl⟩
  rw [Tailer.head]
  rw [if_pos (show (-1 : Int) < 0 from by norm_num)]
  rw [lenD, show ((-(-1 : Int)).toNat) = 1 from rfl]
  rw [show ({ bigLineFile with pos := 1025 } : BFile) = ⟨bigLineFile.data, 1025⟩ from rfl,
    backLoop_D]

end Startstop
